import Mathlib

set_option maxRecDepth 100000

/-!
Verification of the kube-copilot agent core against its specification.

The Go sources are shallowly embedded below:
  * string helpers mirror the `strings` package functions the code uses
    (ASCII/Unicode whitespace trimming, substring search, field splitting);
  * `isTemplateValue`, `cleanJSONs` (pkg/assistants `cleanJSON`),
    `CleanJSONu` (pkg/utils `CleanJSON`), `extractFieldU`
    (pkg/utils `ExtractField`) follow their Go definitions line by line;
  * `encoding/json` generic unmarshalling/marshalling is embedded by a
    fuel-based JSON parser (`jsonParse`) and a canonical serializer
    (`goMarshal`) with Go's HTML-escaping and sorted object keys;
  * the agent loops (`assistantSimple` from pkg/assistants/simple.go and
    `assistantV2` from the part_012 variant) are embedded as total
    functions over an environment supplying the LLM replies, the JSON
    decoding of replies and the tool registry; the loop fuel is exactly
    the code's own `maxIterations - iterations` bound;
  * the `/execute` HTTP response decision (`executeRespond`) follows the
    handler's branch structure.
The pkg/llms token budgeter is not part of the sources; where needed it is
modelled from the specification (see the doc comments on `approxTokens`,
`constrictPrompt`, `constrictMessages`).
-/

/-! ### Go `strings` helpers -/

/-- Whitespace as accepted by Go `unicode.IsSpace` on the Latin-1 range
(the only code points the embedded inputs use). -/
def goIsSpace (c : Char) : Bool :=
  c = ' ' || c = '\t' || c = '\n' || c = '\x0b' || c = '\x0c' || c = '\r' ||
  c = '\x85' || c = '\xa0'

/-- Whitespace class of Go regexp `\s`, namely `[\t\n\f\r ]`. -/
def regSp (c : Char) : Bool :=
  c = '\t' || c = '\n' || c = '\x0c' || c = '\r' || c = ' '

/-- `strings.TrimSpace` on the character list. -/
def trimSpaceL (l : List Char) : List Char :=
  ((l.dropWhile goIsSpace).reverse.dropWhile goIsSpace).reverse

/-- `strings.TrimSpace`. -/
def trimSpaceS (s : String) : String := ⟨trimSpaceL s.data⟩

/-- `strings.HasPrefix` (byte prefix and character prefix agree on UTF-8). -/
def goHasPfx (s pat : String) : Bool := pat.data.isPrefixOf s.data

/-- `strings.TrimPrefix`. -/
def goTrimPfx (s pat : String) : String :=
  if pat.data.isPrefixOf s.data then ⟨s.data.drop pat.data.length⟩ else s

/-- `strings.TrimSuffix`. -/
def goTrimSfx (s pat : String) : String :=
  if pat.data.isSuffixOf s.data then ⟨s.data.take (s.data.length - pat.data.length)⟩ else s

/-- Substring search on character lists. -/
def listInfix (pat : List Char) : List Char → Bool
  | [] => pat.isEmpty
  | c :: rest => pat.isPrefixOf (c :: rest) || listInfix pat rest

/-- `strings.Contains`; UTF-8 byte-level substring search coincides with
character-level search because UTF-8 is self-synchronizing. -/
def goContains (s pat : String) : Bool := listInfix pat.data s.data

/-- `strings.Fields`: split around runs of whitespace, dropping empties. -/
def splitWsGo (cur : List Char) : List Char → List (List Char)
  | [] => if cur.isEmpty then [] else [cur.reverse]
  | c :: rest =>
    if goIsSpace c then
      if cur.isEmpty then splitWsGo [] rest else cur.reverse :: splitWsGo [] rest
    else splitWsGo (c :: cur) rest

/-- `strings.Fields` lifted to strings. -/
def goFields (s : String) : List String := (splitWsGo [] s.data).map fun cs => ⟨cs⟩

/-- `strings.Split` with a one-character separator (keeps empty pieces). -/
def goSplitChar (s : String) (sep : Char) : List String :=
  (s.data.splitOn sep).map fun cs => ⟨cs⟩

/-! ### Placeholder detection (part_012 `isTemplateValue`) -/

/-- The fixed template-marker substrings of `isTemplateValue`. -/
def templatePatterns : List String :=
  ["<最终答案", "<final_answer", "<Final answer", "<最终回答", "<回答", "<答案",
   "使用 Markdown 格式", "使用Markdown格式", "换行符用 \\n 表示", "换行符用\\n表示"]

/-- part_012 `isTemplateValue`: Go `len(value)` is the UTF-8 byte length. -/
def isTemplateValue (value : String) : Bool :=
  if value.utf8ByteSize < 10 then true
  else if templatePatterns.any fun pat => goContains value pat then true
  else if goContains value "<" && goContains value ">" then true
  else false

/-- The claim's placeholder predicate, read with "length < 10 characters"
as a character count (the spec's wording); compared against the code's
byte-length check. -/
def claimPlaceholder (value : String) : Bool :=
  decide (value.length < 10) ||
  (templatePatterns.any fun pat => goContains value pat) ||
  (goContains value "<" && goContains value ">")

/-! ### The kubectl tool (pkg/tools/kubectl.go and the part_013 variant) -/

/-- How a kubectl invocation is executed: through `sh -c` or by calling the
kubectl binary directly with an argument vector. -/
inductive KExec where
  | shell (cmdline : String)
  | direct (args : List String)
deriving DecidableEq, Repr

/-- The leading-`kubectl` strip shared by both variants:
`if strings.HasPrefix(command, "kubectl") { command = TrimSpace(TrimPrefix(command, "kubectl")) }`. -/
def stripKubectl (command : String) : String :=
  if goHasPfx command "kubectl" then trimSpaceS (goTrimPfx command "kubectl") else command

/-- pkg/tools/kubectl.go `Kubectl`, lines 44-84: the decision of how the
command is executed (the subprocess spawn itself is outside the embedding). -/
def kubectlPlan (command : String) : KExec :=
  let c := stripKubectl command
  if goContains c "|" || goContains c ">" || goContains c "<" ||
     goContains c ";" || goContains c "&&" || goContains c "||" then
    .shell ("kubectl " ++ c)
  else if goContains c "\"" || goContains c "'" then
    .shell ("kubectl " ++ c)
  else
    .direct (goFields c)

/-- part_013 `Kubectl`, lines 122-131: always a direct invocation with the
command split on single spaces. -/
def kubectlPlanOld (command : String) : KExec :=
  let c := stripKubectl command
  .direct (goSplitChar c ' ')

/-- The claim's shell-delegation condition, from the spec's words: a pipe,
output/input redirection, semicolon, logical and/or, or a quote. -/
def needsShellSpec (c : String) : Bool :=
  ["|", ">", "<", ";", "&&", "||", "\"", "'"].any fun pat => goContains c pat

/-- pkg/tools/kubectl.go lines 85-95: on both the success and the error
path the function returns `string(output)`, the combined output unchanged. -/
def kubectlReturnOutput (combined : String) : String := combined

/-- part_013 lines 137-149: both paths return `strings.TrimSpace(string(output))`. -/
def kubectlReturnOutputOld (combined : String) : String := trimSpaceS combined

/-- Lines of a string, splitting on the newline character. -/
def linesOf (s : String) : List String := goSplitChar s '\n'

/-- The output filter described by the claim, built from the spec's words:
drop lines that begin with the CLI error-code prefix pattern (`E` followed
by a digit) or that contain the transient message
"server is currently unable to handle the request"; keep all other lines. -/
def specFilterKubectl (s : String) : String :=
  let keep := fun (line : String) =>
    !(match line.data with
      | 'E' :: d :: _ => d.isDigit
      | _ => false) &&
    !(goContains line "server is currently unable to handle the request")
  String.intercalate "\n" ((linesOf s).filter keep)

/-! ### A model of `encoding/json` generic values

Numbers are carried as their literal token: the claims under study never
exercise number re-formatting, and for the integer and plain decimal
literals that occur in this development Go's float64 round-trip prints the
literal back unchanged. -/

inductive Json where
  | null
  | bool (b : Bool)
  | num (raw : String)
  | str (s : String)
  | arr (items : List Json)
  | obj (fields : List (String × Json))

/-- Lexicographic order on keys; Go's byte order coincides with the
code-point order on valid UTF-8. -/
def keyLt : List Char → List Char → Bool
  | [], [] => false
  | [], _ :: _ => true
  | _ :: _, [] => false
  | c :: cs, d :: ds => if c < d then true else if d < c then false else keyLt cs ds

/-- Insert into a key-sorted association list. -/
def insertByKey (p : String × Json) : List (String × Json) → List (String × Json)
  | [] => [p]
  | q :: rest => if keyLt q.1.data p.1.data then q :: insertByKey p rest else p :: q :: rest

/-- Sort object members by key, as Go does when marshalling a map. -/
def sortByKey (l : List (String × Json)) : List (String × Json) := l.foldr insertByKey []

/-- One map assignment: a later duplicate key overwrites the earlier value. -/
def setKey (acc : List (String × Json)) (p : String × Json) : List (String × Json) :=
  if acc.any fun q => q.1 = p.1 then
    acc.map fun q => if q.1 = p.1 then (q.1, p.2) else q
  else acc ++ [p]

/-- The `map[string]interface{}` view of object members: duplicates are
resolved last-wins and keys are sorted, exactly the information a Go map
retains.  The parser applies this to every object it produces, mirroring
`json.Unmarshal` into `interface{}`. -/
def canonFields (fs : List (String × Json)) : List (String × Json) :=
  sortByKey (fs.foldl setKey [])

/-- Map lookup on object members. -/
def objGet (fs : List (String × Json)) (k : String) : Option Json :=
  fs.foldl (fun acc p => if p.1 = k then some p.2 else acc) none

/-- JSON insignificant whitespace. -/
def jsonWsB (c : Char) : Bool := c = ' ' || c = '\t' || c = '\n' || c = '\r'

/-- Skip JSON whitespace. -/
def skipWsL (l : List Char) : List Char := l.dropWhile jsonWsB

/-- Hexadecimal digit value. -/
def hexVal (c : Char) : Option Nat :=
  if '0' ≤ c ∧ c ≤ '9' then some (c.toNat - 48)
  else if 'a' ≤ c ∧ c ≤ 'f' then some (c.toNat - 87)
  else if 'A' ≤ c ∧ c ≤ 'F' then some (c.toNat - 70)
  else none

/-- JSON string-literal body (after the opening quote): raw control
characters are rejected exactly as `encoding/json` rejects them; escape
sequences are decoded. A `\uXXXX` surrogate half decodes to U+FFFD (the
pairing Go performs is not needed by any input of this development). -/
def parseStrChars : Nat → List Char → Option (List Char × List Char)
  | 0, _ => none
  | _ + 1, [] => none
  | fuel + 1, c :: rest =>
    if c = '"' then some ([], rest)
    else if c = '\\' then
      match rest with
      | [] => none
      | e :: r2 =>
        if e = '"' then (parseStrChars fuel r2).map fun (cs, r) => ('"' :: cs, r)
        else if e = '\\' then (parseStrChars fuel r2).map fun (cs, r) => ('\\' :: cs, r)
        else if e = '/' then (parseStrChars fuel r2).map fun (cs, r) => ('/' :: cs, r)
        else if e = 'b' then (parseStrChars fuel r2).map fun (cs, r) => ('\x08' :: cs, r)
        else if e = 'f' then (parseStrChars fuel r2).map fun (cs, r) => ('\x0c' :: cs, r)
        else if e = 'n' then (parseStrChars fuel r2).map fun (cs, r) => ('\n' :: cs, r)
        else if e = 'r' then (parseStrChars fuel r2).map fun (cs, r) => ('\r' :: cs, r)
        else if e = 't' then (parseStrChars fuel r2).map fun (cs, r) => ('\t' :: cs, r)
        else if e = 'u' then
          match r2 with
          | h1 :: h2 :: h3 :: h4 :: r3 =>
            match hexVal h1, hexVal h2, hexVal h3, hexVal h4 with
            | some a, some b, some c2, some d =>
              let n := a * 4096 + b * 256 + c2 * 16 + d
              let ch := if 0xD800 ≤ n ∧ n ≤ 0xDFFF then '�' else Char.ofNat n
              (parseStrChars fuel r3).map fun (cs, r) => (ch :: cs, r)
            | _, _, _, _ => none
          | _ => none
        else none
    else if c.toNat < 0x20 then none
    else (parseStrChars fuel rest).map fun (cs, r) => (c :: cs, r)

/-- Fraction part of a JSON number. -/
def parseFrac (tok : List Char) (l : List Char) : Option (List Char × List Char) :=
  match l with
  | '.' :: r =>
    let ds := r.takeWhile Char.isDigit
    if ds.isEmpty then none else some (tok ++ '.' :: ds, r.dropWhile Char.isDigit)
  | _ => some (tok, l)

/-- Exponent part of a JSON number. -/
def parseExp (tok : List Char) (l : List Char) : Option (List Char × List Char) :=
  match l with
  | e :: r =>
    if e = 'e' || e = 'E' then
      let (sg, r1) : List Char × List Char :=
        match r with
        | '+' :: r2 => (['+'], r2)
        | '-' :: r2 => (['-'], r2)
        | _ => ([], r)
      let ds := r1.takeWhile Char.isDigit
      if ds.isEmpty then none else some (tok ++ e :: (sg ++ ds), r1.dropWhile Char.isDigit)
    else some (tok, l)
  | [] => some (tok, l)

/-- JSON number token (strict grammar: no leading zeros). -/
def parseNum (l : List Char) : Option (String × List Char) :=
  let (sign, l1) : List Char × List Char :=
    match l with
    | '-' :: r => (['-'], r)
    | _ => ([], l)
  match l1 with
  | '0' :: r =>
    if (match r with | d :: _ => d.isDigit | [] => false) then none
    else
      match parseFrac (sign ++ ['0']) r with
      | some (tok, r2) => (parseExp tok r2).map fun (t, r3) => (⟨t⟩, r3)
      | none => none
  | d :: r =>
    if d.isDigit then
      let ds := r.takeWhile Char.isDigit
      match parseFrac (sign ++ d :: ds) (r.dropWhile Char.isDigit) with
      | some (tok, r2) => (parseExp tok r2).map fun (t, r3) => (⟨t⟩, r3)
      | none => none
    else none
  | [] => none

mutual

/-- Recursive-descent JSON value parser (fuel-based; the fuel passed by
`jsonParse` always suffices for the inputs evaluated here). -/
def parseVal : Nat → List Char → Option (Json × List Char)
  | 0, _ => none
  | fuel + 1, l =>
    match l with
    | [] => none
    | c :: rest =>
      if c = 'n' then
        match rest with
        | 'u' :: 'l' :: 'l' :: r => some (.null, r)
        | _ => none
      else if c = 't' then
        match rest with
        | 'r' :: 'u' :: 'e' :: r => some (.bool true, r)
        | _ => none
      else if c = 'f' then
        match rest with
        | 'a' :: 'l' :: 's' :: 'e' :: r => some (.bool false, r)
        | _ => none
      else if c = '"' then
        match parseStrChars rest.length rest with
        | some (cs, r) => some (.str ⟨cs⟩, r)
        | none => none
      else if c = '{' then parseObjRest fuel (skipWsL rest) []
      else if c = '[' then parseArrRest fuel (skipWsL rest) []
      else if c = '-' || c.isDigit then
        match parseNum (c :: rest) with
        | some (tok, r) => some (.num tok, r)
        | none => none
      else none

/-- Object members; `acc` holds the members seen so far (reversed). -/
def parseObjRest : Nat → List Char → List (String × Json) → Option (Json × List Char)
  | 0, _, _ => none
  | fuel + 1, l, acc =>
    match l with
    | '}' :: r => if acc.isEmpty then some (.obj [], r) else none
    | '"' :: rest =>
      match parseStrChars rest.length rest with
      | some (kcs, r1) =>
        match skipWsL r1 with
        | ':' :: r2 =>
          match parseVal fuel (skipWsL r2) with
          | some (v, r3) =>
            match skipWsL r3 with
            | ',' :: r4 => parseObjRest fuel (skipWsL r4) ((⟨kcs⟩, v) :: acc)
            | '}' :: r4 => some (.obj (canonFields ((⟨kcs⟩, v) :: acc).reverse), r4)
            | _ => none
          | none => none
        | _ => none
      | none => none
    | _ => none

/-- Array items; `acc` holds the items seen so far (reversed). -/
def parseArrRest : Nat → List Char → List Json → Option (Json × List Char)
  | 0, _, _ => none
  | fuel + 1, l, acc =>
    match l with
    | ']' :: r => if acc.isEmpty then some (.arr [], r) else none
    | _ =>
      match parseVal fuel l with
      | some (v, r1) =>
        match skipWsL r1 with
        | ',' :: r2 => parseArrRest fuel (skipWsL r2) (v :: acc)
        | ']' :: r2 => some (.arr (v :: acc).reverse, r2)
        | _ => none
      | none => none

end

/-- `json.Unmarshal` of a whole string into a generic value: leading and
trailing whitespace tolerated, trailing garbage rejected. -/
def jsonParse (s : String) : Option Json :=
  match parseVal (2 * s.data.length + 2) (skipWsL s.data) with
  | some (v, rest) => if (skipWsL rest).isEmpty then some v else none
  | none => none

/-! ### Go canonical marshalling -/

/-- Lowercase hexadecimal digit. -/
def hexDigitL (n : Nat) : Char := if n < 10 then Char.ofNat (48 + n) else Char.ofNat (87 + n)

/-- A `\uXXXX` escape. -/
def uEsc (n : Nat) : List Char :=
  ['\\', 'u', hexDigitL (n / 4096 % 16), hexDigitL (n / 256 % 16),
   hexDigitL (n / 16 % 16), hexDigitL (n % 16)]

/-- `encoding/json` string escaping (HTML escaping on, as by default). -/
def escChar (c : Char) : List Char :=
  if c = '"' then ['\\', '"']
  else if c = '\\' then ['\\', '\\']
  else if c = '\n' then ['\\', 'n']
  else if c = '\r' then ['\\', 'r']
  else if c = '\t' then ['\\', 't']
  else if c = '<' || c = '>' || c = '&' then uEsc c.toNat
  else if c.toNat < 0x20 then uEsc c.toNat
  else if c.toNat = 0x2028 || c.toNat = 0x2029 then uEsc c.toNat
  else [c]

/-- Marshal a string value. -/
def jstr (s : String) : String := ⟨'"' :: ((s.data.map escChar).flatten ++ ['"'])⟩

mutual

/-- `json.Marshal` of a generic value: compact form, object keys sorted. -/
def goMarshal : Json → String
  | .null => "null"
  | .bool true => "true"
  | .bool false => "false"
  | .num raw => raw
  | .str s => jstr s
  | .arr items => "[" ++ marshalArr items ++ "]"
  | .obj fs => "\x7b" ++ marshalObj fs ++ "\x7d"

/-- Comma-separated marshalling of array items. -/
def marshalArr : List Json → String
  | [] => ""
  | [v] => goMarshal v
  | v :: w :: rest => goMarshal v ++ "," ++ marshalArr (w :: rest)

/-- Comma-separated marshalling of object members. -/
def marshalObj : List (String × Json) → String
  | [] => ""
  | [(k, v)] => jstr k ++ ":" ++ goMarshal v
  | (k, v) :: q :: rest => jstr k ++ ":" ++ goMarshal v ++ "," ++ marshalObj (q :: rest)

end

/-! ### pkg/assistants `cleanJSON` (simple.go lines 513-533) -/

/-- The whitespace-collapse of `regexp.MustCompile("\\s+").ReplaceAllString(s, " ")`:
every maximal run of regexp whitespace becomes a single space. -/
def collapseWsGo (prevSp : Bool) : List Char → List Char
  | [] => []
  | c :: rest =>
    if regSp c then
      if prevSp then collapseWsGo true rest else ' ' :: collapseWsGo true rest
    else c :: collapseWsGo false rest

/-- The recovery cleanup on the parse-failure path of `cleanJSON`:
newlines and carriage returns become spaces, whitespace runs collapse,
then the edges are trimmed. -/
def cleanupFail (s : String) : String :=
  let repl := s.data.map fun c => if c = '\n' then ' ' else if c = '\r' then ' ' else c
  trimSpaceS ⟨collapseWsGo false repl⟩

/-- pkg/assistants/simple.go `cleanJSON`: trim, strip code fences, then
either re-marshal the parsed JSON or apply the whitespace cleanup. -/
def cleanJSONs (input : String) : String :=
  let i1 := trimSpaceS input
  let i2 := goTrimPfx i1 "```json"
  let i3 := goTrimPfx i2 "```"
  let i4 := goTrimSfx i3 "```"
  match jsonParse i4 with
  | some v => goMarshal v
  | none => cleanupFail i4

/-! ### pkg/utils/json.go: `CleanJSON`, `ParseJSON`, `ExtractField` -/

/-- `extractJSONObject`: the slice from the first `{` to the last `}` when
both exist in order, otherwise the text unchanged. -/
def extractJSONObject (s : String) : String :=
  let l := s.data
  match l.findIdx? (· = '{') with
  | none => s
  | some f =>
    match l.reverse.findIdx? (· = '}') with
    | none => s
    | some rb =>
      let lastB := l.length - 1 - rb
      if f > lastB then s else ⟨(l.drop f).take (lastB - f + 1)⟩

/-- `handleMultilineStrings`: the rune loop with its `inString`/`escaped`
state, escaping literal newlines and carriage returns inside strings. -/
def hmGo (inS esc : Bool) : List Char → List Char
  | [] => []
  | c :: rest =>
    if c = '\\' then c :: hmGo inS (!esc) rest
    else if c = '"' then c :: hmGo (if esc then inS else !inS) false rest
    else if c = '\n' then
      if inS then '\\' :: 'n' :: hmGo inS false rest else c :: hmGo inS false rest
    else if c = '\r' then
      if inS then '\\' :: 'r' :: hmGo inS false rest else c :: hmGo inS false rest
    else c :: hmGo inS false rest

/-- `handleMultilineStrings` on strings. -/
def handleMultilineStrings (s : String) : String := ⟨hmGo false false s.data⟩

/-- The string-literal language of the Go regexp
`"([^"\\]*(\\.[^"\\]*)*)"`: from after an opening quote, returns the inner
characters and the remainder after the closing quote.  `.` in the regexp
does not match a newline, so a backslash followed by a newline aborts the
match, exactly as in Go. -/
def scanLit : Nat → List Char → Option (List Char × List Char)
  | 0, _ => none
  | _ + 1, [] => none
  | fuel + 1, c :: rest =>
    if c = '"' then some ([], rest)
    else if c = '\\' then
      match rest with
      | [] => none
      | d :: r2 =>
        if d = '\n' then none
        else (scanLit fuel r2).map fun (inner, r) => (c :: d :: inner, r)
    else (scanLit fuel rest).map fun (inner, r) => (c :: inner, r)

/-- The replacement body of `handleUnescapedQuotes`:
`strings.ReplaceAll(inner, "\"", "\\\"")`. -/
def replQ (inner : List Char) : List Char :=
  (inner.map fun c => if c = '"' then ['\\', '"'] else [c]).flatten

/-- `handleUnescapedQuotes`: leftmost non-overlapping matches of the string
literal regexp, each rewritten with its inner quotes escaped. -/
def huqGo : Nat → List Char → List Char
  | 0, l => l
  | fuel + 1, l =>
    match l with
    | [] => []
    | c :: rest =>
      if c = '"' then
        match scanLit rest.length rest with
        | some (inner, after) => '"' :: (replQ inner ++ '"' :: huqGo fuel after)
        | none => c :: huqGo fuel rest
      else c :: huqGo fuel rest

/-- `handleUnescapedQuotes` on strings. -/
def handleUnescapedQuotes (s : String) : String := ⟨huqGo (s.data.length + 1) s.data⟩

/-- `handleTrailingCommas`: each match of `,\s*([}\]])` is replaced by the
bracket alone. -/
def htcGo : Nat → List Char → List Char
  | 0, l => l
  | fuel + 1, l =>
    match l with
    | [] => []
    | c :: rest =>
      if c = ',' then
        match rest.dropWhile regSp with
        | b :: after =>
          if b = '}' || b = ']' then b :: htcGo fuel after
          else c :: htcGo fuel rest
        | [] => c :: htcGo fuel rest
      else c :: htcGo fuel rest

/-- `handleTrailingCommas` on strings. -/
def handleTrailingCommas (s : String) : String := ⟨htcGo (s.data.length + 1) s.data⟩

/-- pkg/utils/json.go `CleanJSON`: the four recovery stages in order. -/
def cleanJSONu (jsonStr : String) : String :=
  handleTrailingCommas (handleUnescapedQuotes (handleMultilineStrings (extractJSONObject jsonStr)))

/-- `ParseJSON` restricted to its observable result: the member map of the
top-level object, from the direct parse or else from the parse of the
cleaned string. -/
def parseJSONu (s : String) : Option (List (String × Json)) :=
  match jsonParse s with
  | some (.obj fs) => some fs
  | _ =>
    match jsonParse (cleanJSONu s) with
    | some (.obj fs) => some fs
    | _ => none

/-- One position of the `"field"\s*:\s*"…"` regexp of `ExtractField`:
the literal quoted field name, optional regexp whitespace around the
colon, then a string literal. -/
def tryFieldAt (name : List Char) (l : List Char) : Option (List Char) :=
  if ('"' :: (name ++ ['"'])).isPrefixOf l then
    let l1 := (l.drop (name.length + 2)).dropWhile regSp
    match l1 with
    | ':' :: l2 =>
      match l2.dropWhile regSp with
      | '"' :: l3 => (scanLit l3.length l3).map fun (inner, _) => inner
      | _ => none
    | _ => none
  else none

/-- The leftmost match of the field regexp. -/
def regexFieldScan (name : List Char) : List Char → Option (List Char)
  | [] => none
  | c :: rest =>
    match tryFieldAt name (c :: rest) with
    | some inner => some inner
    | none => regexFieldScan name rest

/-- One `strings.ReplaceAll` pass for a two-character pattern. -/
def replace2 (a b : Char) (out : List Char) : List Char → List Char
  | [] => []
  | [c] => [c]
  | c :: d :: rest =>
    if c = a && d = b then out ++ replace2 a b out rest
    else c :: replace2 a b out (d :: rest)

/-- The unescape sequence of `ExtractField`, in the code's order. -/
def unescapeField (l : List Char) : List Char :=
  replace2 '\\' '\\' ['\\']
    (replace2 '\\' 't' ['\t']
      (replace2 '\\' 'r' ['\r']
        (replace2 '\\' 'n' ['\n']
          (replace2 '\\' '"' ['"'] l))))

/-- pkg/utils/json.go `ExtractField`: map lookup via `ParseJSON` (strings
returned as-is, other values re-marshalled), with the regexp fallback. -/
def extractFieldU (jsonStr : String) (fieldName : String) : Option String :=
  let rex := fun () =>
    (regexFieldScan fieldName.data jsonStr.data).map fun inner => (⟨unescapeField inner⟩ : String)
  match parseJSONu jsonStr with
  | some fs =>
    match objGet fs fieldName with
    | some (.str v) => some v
    | some v => some (goMarshal v)
    | none => rex ()
  | none => rex ()

/-! ### pkg/tools `ToolPrompt` (tool.go lines 30-39) and its JSON codec -/

/-- The `action` member of the envelope. -/
structure ToolAction where
  name : String
  input : String
deriving DecidableEq, Repr

/-- The wire envelope between the LLM and the loop. -/
structure ToolPrompt where
  question : String
  thought : String
  action : ToolAction
  observation : String
  finalAnswer : String
deriving DecidableEq, Repr

/-- `json.Unmarshal` of one string-typed struct field: absent or `null`
leaves the zero value, a non-string value is an error. -/
def getStrField (fs : List (String × Json)) (k : String) : Option String :=
  match objGet fs k with
  | none => some ""
  | some .null => some ""
  | some (.str v) => some v
  | some _ => none

/-- `json.Unmarshal` of a generic value into a `ToolPrompt` (the
`AIResponse` of part_003/part_009 has the same fields and tags). -/
def decodeToolPrompt (j : Json) : Option ToolPrompt :=
  match j with
  | .obj fs =>
    match getStrField fs "question", getStrField fs "thought",
          getStrField fs "observation", getStrField fs "final_answer" with
    | some q, some th, some ob, some fa =>
      match objGet fs "action" with
      | none => some ⟨q, th, ⟨"", ""⟩, ob, fa⟩
      | some .null => some ⟨q, th, ⟨"", ""⟩, ob, fa⟩
      | some (.obj afs) =>
        match getStrField afs "name", getStrField afs "input" with
        | some n, some i => some ⟨q, th, ⟨n, i⟩, ob, fa⟩
        | _, _ => none
      | some _ => none
    | _, _, _, _ => none
  | _ => none

/-- `json.Unmarshal([]byte(s), &toolPrompt)` as the loops use it. -/
def parseToolPrompt (s : String) : Option ToolPrompt :=
  (jsonParse s).bind decodeToolPrompt

/-- `json.Marshal` of a `ToolPrompt`: struct fields in declaration order
with their json tags. -/
def marshalToolPrompt (tp : ToolPrompt) : String :=
  "\x7b\"question\":" ++ jstr tp.question ++
  ",\"thought\":" ++ jstr tp.thought ++
  ",\"action\":\x7b\"name\":" ++ jstr tp.action.name ++
  ",\"input\":" ++ jstr tp.action.input ++
  "\x7d,\"observation\":" ++ jstr tp.observation ++
  ",\"final_answer\":" ++ jstr tp.finalAnswer ++ "\x7d"

/-- The `map[string]interface{}` extraction of a string `final_answer`
used by the summarize paths and the generic handler branch: `some fa`
exactly when the string parses as JSON whose top level is an object whose
`final_answer` member is a string. -/
def extractFAGeneric (s : String) : Option String :=
  match jsonParse s with
  | some (.obj fs) =>
    match objGet fs "final_answer" with
    | some (.str fa) => some fa
    | _ => none
  | _ => none

/-! ### The `/execute` response decision (part_003 lines 385-497,
part_009 lines 201-297; both handlers share this branch structure) -/

/-- The response message of the processing state. -/
def processingMessage : String := "指令正在执行中，请稍候..."

/-- The generic-map fallback and the final fallback of the handler. -/
def executeGeneric (response : String) : String × String :=
  match extractFAGeneric response with
  | some fa => if fa ≠ "" then (fa, "success") else (response, "success")
  | none => (response, "success")

/-- The cleaned-JSON re-parse branch of the handler. -/
def executeCleaned (response : String) : String × String :=
  match parseToolPrompt (cleanJSONu response) with
  | some ai => if ai.finalAnswer ≠ "" then (ai.finalAnswer, "success") else executeGeneric response
  | none => executeGeneric response

/-- The `(message, status)` pair of the JSON body the execute endpoint
sends when the loop returned without error with text `response`. -/
def executeRespond (response : String) : String × String :=
  match parseToolPrompt response with
  | some aiResp =>
    if aiResp.finalAnswer ≠ "" then (aiResp.finalAnswer, "success")
    else (processingMessage, "processing")
  | none =>
    match extractFieldU response "final_answer" with
    | some fa => if fa ≠ "" then (fa, "success") else executeCleaned response
    | none => executeCleaned response

/-! ### The token budgeter, modelled from the specification -/

/-- Modelled from the spec: the pkg/llms token counter is not among the
sources; per §4.2 and §9 the unknown-model fallback approximates tokens as
UTF-8 bytes divided by four. -/
def approxTokens (s : String) : Nat := s.utf8ByteSize / 4

/-- Chat roles. -/
inductive Role where
  | system
  | user
  | assistant
deriving DecidableEq, Repr

/-- One chat message. -/
structure Msg where
  role : Role
  content : String
deriving DecidableEq, Repr

/-- Modelled from the spec: token count of a history, the sum of the
per-message approximations. -/
def numTokensMsgs (msgs : List Msg) : Nat :=
  msgs.foldl (fun a m => a + approxTokens m.content) 0

/-- Longest prefix of the characters whose UTF-8 size stays within the
byte budget. -/
def takeBytes (budget : Nat) : List Char → List Char
  | [] => []
  | c :: rest =>
    if c.utf8Size ≤ budget then c :: takeBytes (budget - c.utf8Size) rest else []

/-- Modelled from the spec: `llms.ConstrictPrompt` returns the text
unchanged when it is within the token limit and otherwise drops trailing
tokens until it fits. -/
def constrictPrompt (text : String) (_model : String) (limit : Nat) : String :=
  if approxTokens text ≤ limit then text else ⟨takeBytes (4 * limit) text.data⟩

/-- Modelled from the spec: `llms.ConstrictMessages` drops messages from
the second one forward until the total fits the budget, never dropping the
leading system message and never reordering. -/
def dropToFit (base : Nat) (budget : Nat) : List Msg → List Msg
  | [] => []
  | m :: rest =>
    if base + numTokensMsgs (m :: rest) ≤ budget then m :: rest
    else dropToFit base budget rest

/-- Modelled from the spec: the history trim (see `dropToFit`). -/
def constrictMessages (msgs : List Msg) (_model : String) (budget : Nat) : List Msg :=
  match msgs with
  | [] => []
  | first :: rest => first :: dropToFit (approxTokens first.content) budget rest

/-! ### The agent reasoning loops

The environment carries everything external to the loop: the client
construction outcome, the completion replies (indexed by call number and
given the history passed), the JSON decoding of replies into envelopes,
the summarize-path `final_answer` extraction, and the tool registry (a
tool returns its combined output and whether it failed).  Loop fuel is the
code's own `maxIterations - iterations` bound: the Go loop returns as soon
as `iterations` exceeds `maxIterations`, so the fuel pattern reproduces
its control flow exactly.  The second component of the result is the value
of the code's `iterations` counter restricted to iterations that passed
the cap check. -/

/-- External collaborators of a loop invocation. -/
structure LoopEnv where
  clientErr : Option String
  chat : Nat → List Msg → Except String String
  parse : String → Option ToolPrompt
  extractFA : String → Option String
  tools : String → Option (String → String × Bool)

/-- The Go return `(result, chatHistory, err)`, with `err = nil` as `ok`. -/
inductive AResult where
  | ok (answer : String) (history : List Msg)
  | err (emsg : String) (history : List Msg)
deriving DecidableEq, Repr

/-- The summarization request appended on a mid-loop parse failure. -/
def summarizeRequest : String :=
  "Summarize all the chat history and respond to original question with final answer"

/-- The canned final answer of the part_012 empty-observation guard. -/
def cannedEmptyAnswer (model : String) : String :=
  "我的模型是:" ++ model ++ "你的问题我好像没理解,你可以重新问我一次，我保证认真回答或者试试其他模型吧!"

/-- The user-role message appended after a tool execution: the envelope
re-marshalled with `observation` overwritten by the truncated tool output
(simple.go lines 189-197, part_012 lines 862-870). -/
def actUserMessage (model : String) (tp : ToolPrompt) (observation : String) : Msg :=
  ⟨.user, marshalToolPrompt { tp with observation := constrictPrompt observation model 1024 }⟩

/-- `maxIterations <= 0` falls back to `defaultMaxIterations = 10`. -/
def effectiveCap (maxIterations : Int) : Nat :=
  if maxIterations ≤ 0 then 10 else maxIterations.toNat

/-- The part_012 `Assistant`/`AssistantWithConfig` loop body (lines
773-946 and 1072-1300): placeholder-checked final answer, empty-observation
guard, no history trim (the `ConstrictMessages` call is commented out),
and a summarize path that returns the raw summary text. -/
def loopV2 (env : LoopEnv) (model : String) (maxTokens : Nat) :
    Nat → Nat → Nat → ToolPrompt → List Msg → AResult × Nat
  | 0, _, n, tp, hist => (.ok tp.finalAnswer hist, n)
  | rem + 1, k, n, tp, hist =>
    if tp.finalAnswer != "" && !isTemplateValue tp.finalAnswer then
      (.ok tp.finalAnswer hist, n + 1)
    else if tp.action.name != "" then
      let cont := fun (observation : String) =>
        let hist1 := hist ++ [actUserMessage model tp observation]
        match env.chat k hist1 with
        | .error e => (.err ("chat completion error: " ++ e) hist1, n + 1)
        | .ok resp =>
          let hist2 := hist1 ++ [⟨.assistant, resp⟩]
          match env.parse resp with
          | some tp2 => loopV2 env model maxTokens rem (k + 1) (n + 1) tp2 hist2
          | none =>
            let hist3 := hist2 ++ [⟨.user, summarizeRequest⟩]
            match env.chat (k + 1) hist3 with
            | .error e => (.err ("chat completion error: " ++ e) hist3, n + 1)
            | .ok resp2 =>
              match env.extractFA resp2 with
              | some fa =>
                if fa != "" then (.ok resp2 hist3, n + 1) else (.ok resp2 hist3, n + 1)
              | none => (.ok resp2 hist3, n + 1)
      match env.tools tp.action.name with
      | some f =>
        let (ret, failed) := f tp.action.input
        let observation := trimSpaceS ret
        if failed then
          cont ("Tool " ++ tp.action.name ++ " failed with error " ++ ret ++
                ". Considering refine the inputs for the tool.")
        else if observation = "" then
          let tp1 := { tp with finalAnswer := cannedEmptyAnswer model }
          (.ok tp1.finalAnswer (hist ++ [⟨.assistant, marshalToolPrompt tp1⟩]), n + 1)
        else cont observation
      | none =>
        cont ("Tool " ++ tp.action.name ++
              " is not available. Considering switch to other supported tools.")
    else loopV2 env model maxTokens rem k (n + 1) tp hist

/-- part_012 `Assistant` entry (lines 699-772): initial completion, raw
reply appended as an assistant message, initial parse failure returned
directly as the final answer. -/
def assistantV2 (env : LoopEnv) (model : String) (maxTokens : Nat)
    (maxIterations : Int) (prompts : List Msg) : AResult × Nat :=
  if prompts.isEmpty then (.err "prompts cannot be empty" [], 0)
  else
    match env.clientErr with
    | some e => (.err ("unable to get OpenAI client: " ++ e) [], 0)
    | none =>
      match env.chat 0 prompts with
      | .error e => (.err ("chat completion error: " ++ e) prompts, 0)
      | .ok resp =>
        let hist := prompts ++ [⟨.assistant, resp⟩]
        match env.parse resp with
        | none => (.ok resp hist, 0)
        | some tp => loopV2 env model maxTokens (effectiveCap maxIterations) 1 0 tp hist

/-- The pkg/assistants/simple.go `Assistant` loop body (lines 122-266):
any non-empty final answer accepted, no empty-observation guard, history
trimmed before the next completion, and a summarize path that returns the
extracted `final_answer` when available. -/
def loopSimple (env : LoopEnv) (model : String) (maxTokens : Nat) :
    Nat → Nat → Nat → ToolPrompt → List Msg → AResult × Nat
  | 0, _, n, tp, hist => (.ok tp.finalAnswer hist, n)
  | rem + 1, k, n, tp, hist =>
    if tp.finalAnswer != "" then (.ok tp.finalAnswer hist, n + 1)
    else if tp.action.name != "" then
      let observation :=
        match env.tools tp.action.name with
        | some f =>
          let (ret, failed) := f tp.action.input
          if failed then
            "Tool " ++ tp.action.name ++ " failed with error " ++ ret ++
            ". Considering refine the inputs for the tool."
          else trimSpaceS ret
        | none =>
          "Tool " ++ tp.action.name ++
          " is not available. Considering switch to other supported tools."
      let hist1 := constrictMessages (hist ++ [actUserMessage model tp observation]) model maxTokens
      match env.chat k hist1 with
      | .error e => (.err ("chat completion error: " ++ e) hist1, n + 1)
      | .ok resp =>
        let hist2 := hist1 ++ [⟨.assistant, resp⟩]
        match env.parse resp with
        | some tp2 => loopSimple env model maxTokens rem (k + 1) (n + 1) tp2 hist2
        | none =>
          let hist3 := hist2 ++ [⟨.user, summarizeRequest⟩]
          match env.chat (k + 1) hist3 with
          | .error e => (.err ("chat completion error: " ++ e) hist3, n + 1)
          | .ok resp2 =>
            match env.extractFA resp2 with
            | some fa => if fa != "" then (.ok fa hist3, n + 1) else (.ok resp2 hist3, n + 1)
            | none => (.ok resp2 hist3, n + 1)
    else loopSimple env model maxTokens rem k (n + 1) tp hist

/-- pkg/assistants/simple.go `Assistant` entry (lines 43-121): the initial
reply is cleaned by `cleanJSON` before parsing; on an initial parse
failure the cleaned reply is returned directly as the final answer. -/
def assistantSimple (env : LoopEnv) (model : String) (maxTokens : Nat)
    (maxIterations : Int) (prompts : List Msg) : AResult × Nat :=
  if prompts.isEmpty then (.err "prompts cannot be empty" [], 0)
  else
    match env.clientErr with
    | some e => (.err ("unable to get OpenAI client: " ++ e) [], 0)
    | none =>
      match env.chat 0 prompts with
      | .error e => (.err ("chat completion error: " ++ e) prompts, 0)
      | .ok resp =>
        let cleanedResp := cleanJSONs resp
        let hist := prompts ++ [⟨.assistant, resp⟩]
        match env.parse cleanedResp with
        | none => (.ok cleanedResp hist, 0)
        | some tp => loopSimple env model maxTokens (effectiveCap maxIterations) 1 0 tp hist

/-! ### Theorems for the claims -/

/-- The two if-conditions of `kubectlPlan` together are exactly the
claim's shell condition. -/
lemma needsShellSpec_iff (c : String) :
    needsShellSpec c = true ↔
      ((goContains c "|" || goContains c ">" || goContains c "<" ||
        goContains c ";" || goContains c "&&" || goContains c "||") = true ∨
       (goContains c "\"" || goContains c "'") = true) := by
  simp [needsShellSpec, Bool.or_eq_true]
  tauto

/-- C7 (amended): for the pkg/tools/kubectl.go `Kubectl`, a command whose
stripped form contains a pipe, redirection, semicolon, logical and/or, or
a quote is delegated to a shell, and otherwise the kubectl binary is
invoked directly on the whitespace-split tokens; the part_013 variant
instead always invokes the binary directly on the space-split tokens. -/
theorem C7_kubectl_dispatch (cmd : String) :
    (needsShellSpec (stripKubectl cmd) = true →
       kubectlPlan cmd = .shell ("kubectl " ++ stripKubectl cmd)) ∧
    (needsShellSpec (stripKubectl cmd) = false →
       kubectlPlan cmd = .direct (goFields (stripKubectl cmd))) ∧
    kubectlPlanOld cmd = .direct (goSplitChar (stripKubectl cmd) ' ') := by
  refine ⟨?_, ?_, rfl⟩
  · intro h
    rcases (needsShellSpec_iff (stripKubectl cmd)).mp h with h1 | h2
    · unfold kubectlPlan
      simp [h1]
    · unfold kubectlPlan
      by_cases h1 : (goContains (stripKubectl cmd) "|" || goContains (stripKubectl cmd) ">" ||
          goContains (stripKubectl cmd) "<" || goContains (stripKubectl cmd) ";" ||
          goContains (stripKubectl cmd) "&&" || goContains (stripKubectl cmd) "||") = true
      · simp [h1]
      · simp [h1, h2]
  · intro h
    have hno : ¬ ((goContains (stripKubectl cmd) "|" || goContains (stripKubectl cmd) ">" ||
        goContains (stripKubectl cmd) "<" || goContains (stripKubectl cmd) ";" ||
        goContains (stripKubectl cmd) "&&" || goContains (stripKubectl cmd) "||") = true ∨
        (goContains (stripKubectl cmd) "\"" || goContains (stripKubectl cmd) "'") = true) := by
      intro hc
      exact absurd ((needsShellSpec_iff (stripKubectl cmd)).mpr hc) (by simp [h])
    push_neg at hno
    unfold kubectlPlan
    simp [hno.1, hno.2]

/-- C7 witness: a plain read is executed directly with its tokens. -/
theorem C7_kubectl_dispatch_witness :
    needsShellSpec (stripKubectl "kubectl get pods -n default") = false ∧
    kubectlPlan "kubectl get pods -n default" = .direct ["get", "pods", "-n", "default"] := by
  refine ⟨by decide, ?_⟩
  have h := (C7_kubectl_dispatch "kubectl get pods -n default").2.1 (by decide)
  rw [h]
  decide

/-- C7 counterexample: the part_013 `Kubectl`, cited by the claim, never
delegates to a shell: a command containing a pipe is split on spaces and
passed directly to the kubectl binary. -/
theorem C7_counterexample :
    needsShellSpec (stripKubectl "kubectl get namespaces --no-headers | wc -l") = true ∧
    kubectlPlanOld "kubectl get namespaces --no-headers | wc -l" =
      .direct ["get", "namespaces", "--no-headers", "|", "wc", "-l"] := by
  decide

/-- C8 counterexample: a combined output containing an aggregated-API
error line and the transient unavailability message is returned by the
kubectl tool byte for byte; the filter the claim describes would have
removed those lines. -/
theorem C8_counterexample :
    kubectlReturnOutput
        "E0101 10:00:00.000000 1 memcache.go:287] the server is currently unable to handle the request\nNAME READY\npod-1 1/1" =
      "E0101 10:00:00.000000 1 memcache.go:287] the server is currently unable to handle the request\nNAME READY\npod-1 1/1" ∧
    specFilterKubectl
        "E0101 10:00:00.000000 1 memcache.go:287] the server is currently unable to handle the request\nNAME READY\npod-1 1/1" =
      "NAME READY\npod-1 1/1" := by
  constructor
  · rfl
  · decide

/-- C8 (amended): no post-filtering exists: pkg/tools/kubectl.go returns
the combined output unchanged and the part_013 variant only trims edge
whitespace, so in particular every line of the pkg/tools output — matching
the warning patterns or not — is preserved. -/
theorem C8_no_filtering (combined : String) :
    kubectlReturnOutput combined = combined ∧
    linesOf (kubectlReturnOutput combined) = linesOf combined ∧
    kubectlReturnOutputOld combined = trimSpaceS combined := by
  exact ⟨rfl, rfl, rfl⟩

/-- Every branch of the generic fallback reports success. -/
lemma executeGeneric_status (r : String) : (executeGeneric r).2 = "success" := by
  unfold executeGeneric
  cases extractFAGeneric r with
  | none => rfl
  | some fa =>
    by_cases h : fa ≠ ""
    · simp [h]
    · simp [h]

/-- Every branch of the cleaned-JSON fallback reports success. -/
lemma executeCleaned_status (r : String) : (executeCleaned r).2 = "success" := by
  unfold executeCleaned
  cases parseToolPrompt (cleanJSONu r) with
  | none => exact executeGeneric_status r
  | some ai =>
    by_cases h : ai.finalAnswer ≠ ""
    · simp [h]
    · simpa [h] using executeGeneric_status r

/-- C9 (amended): the execute endpoint reports `processing` exactly when
the standard parse of the loop's reply succeeds with an empty
`final_answer`; in every other non-error case — including an unparseable
reply and a placeholder answer — it reports `success`. -/
theorem C9_execute_status (response : String) :
    ((executeRespond response).2 = "processing" ↔
      (∃ ai, parseToolPrompt response = some ai ∧ ai.finalAnswer = "")) ∧
    ((executeRespond response).2 ≠ "processing" → (executeRespond response).2 = "success") := by
  unfold executeRespond
  cases hp : parseToolPrompt response with
  | some ai =>
    dsimp only
    by_cases h : ai.finalAnswer ≠ ""
    · rw [if_pos h]
      refine ⟨⟨fun hfalse => ?_, ?_⟩, fun _ => rfl⟩
      · exact absurd hfalse (by simp)
      · rintro ⟨ai2, hai2, hfa2⟩
        injection hai2 with he
        subst he
        exact absurd hfa2 h
    · rw [if_neg h]
      push_neg at h
      exact ⟨⟨fun _ => ⟨ai, rfl, h⟩, fun _ => rfl⟩, fun hne => absurd rfl hne⟩
  | none =>
    dsimp only
    have hsucc : (match extractFieldU response "final_answer" with
        | some fa => if fa ≠ "" then (fa, "success") else executeCleaned response
        | none => executeCleaned response).2 = "success" := by
      cases extractFieldU response "final_answer" with
      | none => exact executeCleaned_status response
      | some fa =>
        dsimp only
        by_cases h : fa ≠ ""
        · rw [if_pos h]
        · rw [if_neg h]
          exact executeCleaned_status response
    refine ⟨⟨fun hfalse => ?_, ?_⟩, fun _ => hsucc⟩
    · rw [hsucc] at hfalse
      exact absurd hfalse (by simp)
    · rintro ⟨ai2, hai2, _⟩
      exact Option.noConfusion hai2

/-- C9 witness: an envelope with an empty final answer yields the
processing status, and a reply with a non-empty one yields success. -/
theorem C9_execute_status_witness :
    (executeRespond "\x7b\"final_answer\":\"\"\x7d").2 = "processing" := by
  exact (C9_execute_status "\x7b\"final_answer\":\"\"\x7d").1.mpr
    ⟨⟨"", "", ⟨"", ""⟩, "", ""⟩, by decide, rfl⟩

/-- C9 counterexample: a reply no parse stage can handle is still answered
with status success, so success does not certify a non-placeholder final
answer. -/
theorem C9_counterexample :
    executeRespond "hello world" = ("hello world", "success") ∧
    parseToolPrompt "hello world" = none ∧
    extractFieldU "hello world" "final_answer" = none := by
  refine ⟨by decide, by decide, by decide⟩

/-- Dropping a prefix by a predicate twice is the same as once. -/
lemma dropWhile_idem_go (p : Char → Bool) (l : List Char) :
    (l.dropWhile p).dropWhile p = l.dropWhile p := by
  induction l with
  | nil => rfl
  | cons a rest ih =>
    by_cases h : p a
    · rw [List.dropWhile_cons_of_pos h, ih]
    · rw [List.dropWhile_cons_of_neg h, List.dropWhile_cons_of_neg h]

/-- A right trim preserves an existing left trim. -/
lemma dropWhile_of_rightTrim (p : Char → Bool) (m : List Char)
    (hm : m.dropWhile p = m) :
    ((m.reverse.dropWhile p).reverse).dropWhile p = (m.reverse.dropWhile p).reverse := by
  have hsuffix : ∃ t, t ++ (m.reverse.dropWhile p).reverse.reverse = m.reverse := by
    obtain ⟨t, ht⟩ := (List.dropWhile_suffix p (l := m.reverse))
    exact ⟨t, by simpa using ht⟩
  obtain ⟨t, ht⟩ := hsuffix
  have hpfx : (m.reverse.dropWhile p).reverse ++ t.reverse = m := by
    have := congrArg List.reverse ht
    simpa using this
  cases hu : (m.reverse.dropWhile p).reverse with
  | nil => rfl
  | cons a u =>
    have hma : ∃ y, m = a :: y := by
      refine ⟨u ++ t.reverse, ?_⟩
      rw [← hpfx, hu]
      simp
    obtain ⟨y, hy⟩ := hma
    have hpa : ¬ p a = true := by
      intro hpa
      rw [hy, List.dropWhile_cons_of_pos hpa] at hm
      have hlen : (List.dropWhile p y).length ≤ y.length := (List.dropWhile_suffix p).length_le
      rw [hm] at hlen
      simp at hlen
    rw [List.dropWhile_cons_of_neg hpa]

/-- Trimming a character list twice is the same as once. -/
lemma trimSpaceL_idem (l : List Char) : trimSpaceL (trimSpaceL l) = trimSpaceL l := by
  unfold trimSpaceL
  have h1 : (l.dropWhile goIsSpace).dropWhile goIsSpace = l.dropWhile goIsSpace :=
    dropWhile_idem_go goIsSpace l
  have h2 := dropWhile_of_rightTrim goIsSpace (l.dropWhile goIsSpace) h1
  rw [h2, List.reverse_reverse, dropWhile_idem_go]

/-- `strings.TrimSpace` is idempotent. -/
lemma trimSpaceS_idem (s : String) : trimSpaceS (trimSpaceS s) = trimSpaceS s := by
  unfold trimSpaceS
  exact congrArg String.mk (trimSpaceL_idem s.data)

/-- A parse-failing, fence-free fixed point of the whitespace cleanup is a
fixed point of the whole normalizer. -/
lemma cleanJSONs_fixedpoint (t : String)
    (h1 : jsonParse t = none)
    (h2 : cleanupFail t = t)
    (htrim : trimSpaceS t = t)
    (h3 : "```json".data.isPrefixOf t.data = false)
    (h4 : "```".data.isPrefixOf t.data = false)
    (h5 : "```".data.isSuffixOf t.data = false) :
    cleanJSONs t = t := by
  have e1 : goTrimPfx t "```json" = t := by
    unfold goTrimPfx
    rw [if_neg (by simp only [h3]; decide)]
  have e2 : goTrimPfx t "```" = t := by
    unfold goTrimPfx
    rw [if_neg (by simp only [h4]; decide)]
  have e3 : goTrimSfx t "```" = t := by
    unfold goTrimSfx
    rw [if_neg (by simp only [h5]; decide)]
  show (match jsonParse (goTrimSfx (goTrimPfx (goTrimPfx (trimSpaceS t) "```json") "```") "```") with
       | some v => goMarshal v
       | none =>
         cleanupFail (goTrimSfx (goTrimPfx (goTrimPfx (trimSpaceS t) "```json") "```") "```")) = t
  rw [htrim, e1, e2, e3, h1, h2]

/-- C10 counterexample: an input the loop accepts on which the loop's
normalizer is not idempotent.  The literal newline inside the string value
defeats the strict parse, so the first pass only normalizes whitespace;
its output parses, so the second pass re-canonicalizes it. -/
theorem C10_counterexample :
    (parseToolPrompt (cleanJSONs "\x7b \"a\" : \"b\nc\" \x7d")).isSome = true ∧
    cleanJSONs "\x7b \"a\" : \"b\nc\" \x7d" = "\x7b \"a\" : \"b c\" \x7d" ∧
    cleanJSONs (cleanJSONs "\x7b \"a\" : \"b\nc\" \x7d") = "\x7b\"a\":\"b c\"\x7d" ∧
    cleanJSONs (cleanJSONs "\x7b \"a\" : \"b\nc\" \x7d") ≠
      cleanJSONs "\x7b \"a\" : \"b\nc\" \x7d" := by
  refine ⟨by decide, by decide, by decide, by decide⟩

/-- C10 (amended): idempotence fails in general for the loop's `cleanJSON`
(see the counterexample) and holds on its failure path: whenever the
cleaned output still fails to parse, carries no code-fence edge and is a
fixed point of the whitespace cleanup, a second cleaning changes
nothing. -/
theorem C10_cleanJSON_failpath_idem (s : String)
    (h1 : jsonParse (cleanJSONs s) = none)
    (h2 : cleanupFail (cleanJSONs s) = cleanJSONs s)
    (h3 : "```json".data.isPrefixOf (cleanJSONs s).data = false)
    (h4 : "```".data.isPrefixOf (cleanJSONs s).data = false)
    (h5 : "```".data.isSuffixOf (cleanJSONs s).data = false) :
    cleanJSONs (cleanJSONs s) = cleanJSONs s := by
  have htrim : trimSpaceS (cleanJSONs s) = cleanJSONs s := by
    have hx : trimSpaceS (cleanupFail (cleanJSONs s)) = cleanupFail (cleanJSONs s) := by
      unfold cleanupFail
      exact trimSpaceS_idem _
    rw [h2] at hx
    exact hx
  exact cleanJSONs_fixedpoint (cleanJSONs s) h1 h2 htrim h3 h4 h5

/-- C10 witness: a fence-free, whitespace-normal non-JSON string is a
fixed point of the normalizer. -/
theorem C10_cleanJSON_failpath_idem_witness :
    cleanJSONs (cleanJSONs "plain text answer") = cleanJSONs "plain text answer" :=
  C10_cleanJSON_failpath_idem "plain text answer" rfl (by decide)
    (by decide) (by decide) (by decide)

/-- The acceptance test of the part_012 loop head, as a Boolean fact. -/
lemma v2_accept_cond (tp : ToolPrompt) (h1 : tp.finalAnswer ≠ "")
    (h2 : isTemplateValue tp.finalAnswer = false) :
    (tp.finalAnswer != "" && !isTemplateValue tp.finalAnswer) = true := by
  simp [bne_iff_ne, h1, h2]

/-- A placeholder always fails the acceptance test. -/
lemma v2_reject_cond (tp : ToolPrompt) (h2 : isTemplateValue tp.finalAnswer = true) :
    (tp.finalAnswer != "" && !isTemplateValue tp.finalAnswer) = false := by
  simp [h2]

/-- C1 (amended): in the part_012 loops a parsed reply's non-empty
`final_answer` terminates the iteration exactly when it does not match
`isTemplateValue` — whose length test is on the UTF-8 byte length — and a
rejected final answer leaves the loop iterating; the
pkg/assistants/simple.go loop, also named by the claim, performs no
placeholder check and returns any non-empty final answer. -/
theorem C1_final_answer_validation :
    (∀ v : String, isTemplateValue v = true ↔
      (v.utf8ByteSize < 10 ∨ (templatePatterns.any fun pat => goContains v pat) = true ∨
       (goContains v "<" && goContains v ">") = true)) ∧
    (∀ (env : LoopEnv) (m : String) (mt rem k n : Nat) (tp : ToolPrompt) (hist : List Msg),
      tp.finalAnswer ≠ "" → isTemplateValue tp.finalAnswer = false →
      loopV2 env m mt (rem + 1) k n tp hist = (.ok tp.finalAnswer hist, n + 1)) ∧
    (∀ (env : LoopEnv) (m : String) (mt rem k n : Nat) (tp : ToolPrompt) (hist : List Msg),
      isTemplateValue tp.finalAnswer = true → tp.action.name = "" →
      loopV2 env m mt (rem + 1) k n tp hist = loopV2 env m mt rem k (n + 1) tp hist) ∧
    (∀ (env : LoopEnv) (m : String) (mt rem k n : Nat) (tp : ToolPrompt) (hist : List Msg),
      tp.finalAnswer ≠ "" →
      loopSimple env m mt (rem + 1) k n tp hist = (.ok tp.finalAnswer hist, n + 1)) := by
  refine ⟨?_, ?_, ?_, ?_⟩
  · intro v
    unfold isTemplateValue
    by_cases hlen : v.utf8ByteSize < 10
    · simp [hlen]
    · by_cases hpat : (templatePatterns.any fun pat => goContains v pat) = true
      · simp [hlen, hpat]
      · by_cases hlg : (goContains v "<" && goContains v ">") = true
        · simp [hlen, hpat, hlg]
        · simp [hlen, hpat, hlg]
  · intro env m mt rem k n tp hist h1 h2
    rw [loopV2, if_pos (by simp [v2_accept_cond tp h1 h2])]
  · intro env m mt rem k n tp hist h2 hname
    rw [loopV2, if_neg (by simp [v2_reject_cond tp h2]), if_neg (by simp [hname])]
  · intro env m mt rem k n tp hist h1
    rw [loopSimple, if_pos (by simp [bne_iff_ne, h1])]

/-- C1 witness: the part_012 loop accepts a genuine answer at once and
keeps iterating on a placeholder one. -/
theorem C1_final_answer_validation_witness :
    loopV2
        { clientErr := none, chat := fun _ _ => .error "unused", parse := fun _ => none,
          extractFA := fun _ => none, tools := fun _ => none }
        "gpt-4" 100 3 1 0 ⟨"q", "t", ⟨"", ""⟩, "", "There are 5 namespaces."⟩ [] =
      (.ok "There are 5 namespaces." [], 1) :=
  C1_final_answer_validation.2.1
    { clientErr := none, chat := fun _ _ => .error "unused", parse := fun _ => none,
      extractFA := fun _ => none, tools := fun _ => none }
    "gpt-4" 100 2 1 0 ⟨"q", "t", ⟨"", ""⟩, "", "There are 5 namespaces."⟩ []
    (by decide) (by decide)

/-- The environment of the C1 counterexample: the model's first reply
carries the literal placeholder `<final_answer>` as its final answer. -/
def envC1 : LoopEnv :=
  { clientErr := none
    chat := fun k _ =>
      if k = 0 then .ok "\x7b\"final_answer\":\"<final_answer>\"\x7d" else .error "unused"
    parse := parseToolPrompt
    extractFA := extractFAGeneric
    tools := fun _ => none }

/-- C1 counterexample: the pkg/assistants/simple.go `Assistant` terminates
with the placeholder `<final_answer>` — a value matching both the code's
and the claim's placeholder predicate — so in that loop a placeholder
final answer does terminate the run. -/
theorem C1_counterexample :
    (assistantSimple envC1 "gpt-4" 100 10 [⟨.system, "sys"⟩, ⟨.user, "q"⟩]).1 =
      .ok "<final_answer>"
        [⟨.system, "sys"⟩, ⟨.user, "q"⟩,
         ⟨.assistant, "\x7b\"final_answer\":\"<final_answer>\"\x7d"⟩] ∧
    isTemplateValue "<final_answer>" = true ∧
    claimPlaceholder "<final_answer>" = true := by
  refine ⟨by decide, by decide, by decide⟩

/-- Completed iterations of the part_012 loop never exceed the fuel. -/
lemma loopV2_count_le (env : LoopEnv) (m : String) (mt : Nat) :
    ∀ (rem k n : Nat) (tp : ToolPrompt) (hist : List Msg),
      (loopV2 env m mt rem k n tp hist).2 ≤ n + rem := by
  intro rem
  induction rem with
  | zero => intro k n tp hist; simp [loopV2]
  | succ r ih =>
    intro k n tp hist
    rw [loopV2]
    dsimp only
    repeat' split
    all_goals first
      | (exact (ih _ _ _ _).trans (by omega))
      | (dsimp only; omega)

/-- Completed iterations of the simple.go loop never exceed the fuel. -/
lemma loopSimple_count_le (env : LoopEnv) (m : String) (mt : Nat) :
    ∀ (rem k n : Nat) (tp : ToolPrompt) (hist : List Msg),
      (loopSimple env m mt rem k n tp hist).2 ≤ n + rem := by
  intro rem
  induction rem with
  | zero => intro k n tp hist; simp [loopSimple]
  | succ r ih =>
    intro k n tp hist
    rw [loopSimple]
    dsimp only
    repeat' split
    all_goals first
      | (exact (ih _ _ _ _).trans (by omega))
      | (dsimp only; omega)

/-- A reply with neither an action name nor an acceptable final answer
leaves the part_012 loop spinning down its fuel to the cap return. -/
lemma loopV2_stuck (env : LoopEnv) (m : String) (mt : Nat) :
    ∀ (rem k n : Nat) (tp : ToolPrompt) (hist : List Msg),
      tp.action.name = "" →
      (tp.finalAnswer = "" ∨ isTemplateValue tp.finalAnswer = true) →
      loopV2 env m mt rem k n tp hist = (.ok tp.finalAnswer hist, n + rem) := by
  intro rem
  induction rem with
  | zero => intro k n tp hist _ _; simp [loopV2]
  | succ r ih =>
    intro k n tp hist hname hfa
    have hcond : (tp.finalAnswer != "" && !isTemplateValue tp.finalAnswer) = false := by
      rcases hfa with h | h
      · simp [h]
      · simp [h]
    rw [loopV2, if_neg (by simp [hcond]), if_neg (by simp [hname]),
        ih _ _ _ _ hname hfa]
    congr 1
    omega

/-- C2: the loop cap.  `maxIterations <= 0` falls back to 10; the number
of completed iterations of any invocation is bounded by
`max maxIterations 10`; exhausted fuel returns the most recently parsed
`final_answer` — possibly empty — with a nil error; and a reply carrying
neither an action name nor an acceptable final answer still terminates,
reaching the cap return.  All four facts hold for both loop variants. -/
theorem C2_iteration_cap :
    (∀ mi : Int, mi ≤ 0 → effectiveCap mi = 10) ∧
    (∀ mi : Int, (effectiveCap mi : Int) ≤ max mi 10) ∧
    (∀ (env : LoopEnv) (m : String) (mt : Nat) (mi : Int) (p : List Msg),
      ((assistantV2 env m mt mi p).2 : Int) ≤ max mi 10 ∧
      ((assistantSimple env m mt mi p).2 : Int) ≤ max mi 10) ∧
    (∀ (env : LoopEnv) (m : String) (mt k n : Nat) (tp : ToolPrompt) (hist : List Msg),
      loopV2 env m mt 0 k n tp hist = (.ok tp.finalAnswer hist, n) ∧
      loopSimple env m mt 0 k n tp hist = (.ok tp.finalAnswer hist, n)) ∧
    (∀ (env : LoopEnv) (m : String) (mt rem k n : Nat) (tp : ToolPrompt) (hist : List Msg),
      tp.action.name = "" →
      (tp.finalAnswer = "" ∨ isTemplateValue tp.finalAnswer = true) →
      loopV2 env m mt rem k n tp hist = (.ok tp.finalAnswer hist, n + rem)) := by
  have hcap : ∀ mi : Int, (effectiveCap mi : Int) ≤ max mi 10 := by
    intro mi
    unfold effectiveCap
    by_cases h : mi ≤ 0
    · simp [h]
    · rw [if_neg h]
      push_neg at h
      rw [Int.toNat_of_nonneg (le_of_lt h)]
      exact le_max_left _ _
  refine ⟨?_, hcap, ?_, ?_, fun env m mt rem k n tp hist => loopV2_stuck env m mt rem k n tp hist⟩
  · intro mi h
    simp [effectiveCap, h]
  · intro env m mt mi p
    constructor
    · have hb : (assistantV2 env m mt mi p).2 ≤ effectiveCap mi := by
        unfold assistantV2
        repeat' split
        all_goals simpa using (loopV2_count_le env m mt (effectiveCap mi) 1 0 _ _)
      calc ((assistantV2 env m mt mi p).2 : Int)
          ≤ (effectiveCap mi : Int) := by exact_mod_cast hb
        _ ≤ max mi 10 := hcap mi
    · have hb : (assistantSimple env m mt mi p).2 ≤ effectiveCap mi := by
        unfold assistantSimple
        dsimp only
        repeat' split
        all_goals simpa using (loopSimple_count_le env m mt (effectiveCap mi) 1 0 _ _)
      calc ((assistantSimple env m mt mi p).2 : Int)
          ≤ (effectiveCap mi : Int) := by exact_mod_cast hb
        _ ≤ max mi 10 := hcap mi
  · intro env m mt k n tp hist
    exact ⟨by simp [loopV2], by simp [loopSimple]⟩

/-- C2 witness: with the default cap, a reply that keeps rejecting — no
action and a placeholder answer — terminates after ten iterations,
returning the placeholder with no error. -/
theorem C2_iteration_cap_witness :
    effectiveCap (-1) = 10 ∧
    loopV2
        { clientErr := none, chat := fun _ _ => .error "unused", parse := fun _ => none,
          extractFA := fun _ => none, tools := fun _ => none }
        "gpt-4" 100 10 1 0 ⟨"q", "t", ⟨"", ""⟩, "", "<最终答案>"⟩ [] =
      (.ok "<最终答案>" [], 10) := by
  refine ⟨C2_iteration_cap.1 (-1) (by decide), ?_⟩
  have h := C2_iteration_cap.2.2.2.2
    { clientErr := none, chat := fun _ _ => .error "unused", parse := fun _ => none,
      extractFA := fun _ => none, tools := fun _ => none }
    "gpt-4" 100 10 1 0 ⟨"q", "t", ⟨"", ""⟩, "", "<最终答案>"⟩ []
    (by decide) (Or.inr (by decide))
  simpa using h

/-- C3: in an ACT step the appended message has role `user` and carries
the envelope re-serialized with `thought`, `action` and `question`
verbatim and `observation` overwritten by the loop's truncated tool
output, whatever the model wrote there; and the part_012 loop passes
exactly `hist ++ [that message]` to the next completion, as its error
return exhibits.  (The truncation `constrictPrompt` is modelled from the
spec, pkg/llms not being among the sources.) -/
theorem C3_observation_message :
    (∀ (model : String) (tp : ToolPrompt) (obs : String),
      (actUserMessage model tp obs).role = .user ∧
      (actUserMessage model tp obs).content =
        marshalToolPrompt { tp with observation := constrictPrompt obs model 1024 } ∧
      (∀ o : String, actUserMessage model { tp with observation := o } obs =
        actUserMessage model tp obs) ∧
      ({ tp with observation := constrictPrompt obs model 1024 } : ToolPrompt).thought =
          tp.thought ∧
      ({ tp with observation := constrictPrompt obs model 1024 } : ToolPrompt).action =
          tp.action ∧
      ({ tp with observation := constrictPrompt obs model 1024 } : ToolPrompt).question =
          tp.question) ∧
    (∀ (env : LoopEnv) (m : String) (mt rem k n : Nat) (tp : ToolPrompt) (hist : List Msg)
       (f : String → String × Bool) (ret e : String),
      (tp.finalAnswer != "" && !isTemplateValue tp.finalAnswer) = false →
      tp.action.name ≠ "" →
      env.tools tp.action.name = some f →
      f tp.action.input = (ret, false) →
      trimSpaceS ret ≠ "" →
      env.chat k (hist ++ [actUserMessage m tp (trimSpaceS ret)]) = .error e →
      loopV2 env m mt (rem + 1) k n tp hist =
        (.err ("chat completion error: " ++ e)
           (hist ++ [actUserMessage m tp (trimSpaceS ret)]), n + 1)) := by
  constructor
  · intro model tp obs
    exact ⟨rfl, rfl, fun o => rfl, rfl, rfl, rfl⟩
  · intro env m mt rem k n tp hist f ret e hcond hname hf hret hobs hchat
    rw [loopV2, if_neg (by simp [hcond]), if_pos (by simp [bne_iff_ne]; exact hname)]
    dsimp only
    rw [hf]
    dsimp only
    rw [hret]
    dsimp only
    rw [if_neg (by simp [hobs])]
    rw [hchat]
    rw [if_neg hobs]

/-- C3 witness: a concrete ACT step whose appended user message carries
the overwritten observation, exposed by the failing next completion. -/
theorem C3_observation_message_witness :
    loopV2
        { clientErr := none, chat := fun _ _ => .error "boom", parse := fun _ => none,
          extractFA := fun _ => none,
          tools := fun name => if name = "kubectl" then some (fun _ => (" pod-1 \n", false)) else none }
        "gpt-4" 64 3 1 0 ⟨"q", "t", ⟨"kubectl", "get pods"⟩, "model junk", ""⟩ [⟨.system, "sys"⟩] =
      (.err "chat completion error: boom"
        [⟨.system, "sys"⟩,
         actUserMessage "gpt-4" ⟨"q", "t", ⟨"kubectl", "get pods"⟩, "model junk", ""⟩ "pod-1"], 1) := by
  have h := C3_observation_message.2
    { clientErr := none, chat := fun _ _ => .error "boom", parse := fun _ => none,
      extractFA := fun _ => none,
      tools := fun name => if name = "kubectl" then some (fun _ => (" pod-1 \n", false)) else none }
    "gpt-4" 64 2 1 0 ⟨"q", "t", ⟨"kubectl", "get pods"⟩, "model junk", ""⟩ [⟨.system, "sys"⟩]
    (fun _ => (" pod-1 \n", false)) " pod-1 \n" "boom"
    (by decide) (by decide) rfl rfl (by decide) rfl
  have he : trimSpaceS " pod-1 \n" = "pod-1" := by decide
  rw [he] at h
  exact h

/-- Shift of the token-count fold. -/
lemma numTokens_foldl_shift (l : List Msg) :
    ∀ a : Nat, l.foldl (fun acc msg => acc + approxTokens msg.content) a =
      a + l.foldl (fun acc msg => acc + approxTokens msg.content) 0 := by
  induction l with
  | nil => intro a; simp
  | cons msg rest ih =>
    intro a
    simp only [List.foldl_cons]
    rw [ih (a + approxTokens msg.content), ih (0 + approxTokens msg.content)]
    omega

/-- The token count of a history splits off its head. -/
lemma numTokensMsgs_cons (msg : Msg) (l : List Msg) :
    numTokensMsgs (msg :: l) = approxTokens msg.content + numTokensMsgs l := by
  unfold numTokensMsgs
  simp only [List.foldl_cons]
  rw [numTokens_foldl_shift]
  omega

/-- C4 (amended): the budgeter trim — modelled from the spec — preserves
the leading system message and brings the total within the budget
whenever the leading message alone fits, and the simple.go loop passes
exactly the trimmed history to each main-loop completion after the
initial one; the part_012 loops and the summarization completions trim
nothing, so the budget bound fails for them (see the counterexample). -/
theorem C4_history_trim :
    (∀ (model : String) (budget : Nat) (first : Msg) (rest : List Msg),
      (constrictMessages (first :: rest) model budget).head? = some first) ∧
    (∀ (model : String) (budget : Nat) (first : Msg) (rest : List Msg),
      approxTokens first.content ≤ budget →
      numTokensMsgs (constrictMessages (first :: rest) model budget) ≤ budget) ∧
    (∀ (env : LoopEnv) (m : String) (mt rem k n : Nat) (tp : ToolPrompt) (hist : List Msg)
       (f : String → String × Bool) (ret e : String),
      tp.finalAnswer = "" →
      tp.action.name ≠ "" →
      env.tools tp.action.name = some f →
      f tp.action.input = (ret, false) →
      env.chat k (constrictMessages (hist ++ [actUserMessage m tp (trimSpaceS ret)]) m mt) =
        .error e →
      loopSimple env m mt (rem + 1) k n tp hist =
        (.err ("chat completion error: " ++ e)
           (constrictMessages (hist ++ [actUserMessage m tp (trimSpaceS ret)]) m mt), n + 1)) := by
  have dropToFit_fits : ∀ (base budget : Nat), base ≤ budget →
      ∀ rest : List Msg, base + numTokensMsgs (dropToFit base budget rest) ≤ budget := by
    intro base budget hfit rest
    induction rest with
    | nil =>
      unfold dropToFit numTokensMsgs
      simpa using hfit
    | cons msg rest' ih =>
      unfold dropToFit
      split
      · rename_i hle
        exact hle
      · exact ih
  refine ⟨fun model budget first rest => rfl, ?_, ?_⟩
  · intro model budget first rest hfit
    show numTokensMsgs (first :: dropToFit (approxTokens first.content) budget rest) ≤ budget
    rw [numTokensMsgs_cons]
    exact dropToFit_fits _ _ hfit rest
  · intro env m mt rem k n tp hist f ret e hfa hname hf hret hchat
    rw [loopSimple, if_neg (by simp [hfa]), if_pos (by simp [bne_iff_ne]; exact hname)]
    dsimp only
    rw [hf]
    dsimp only
    rw [hret]
    simp only [Bool.false_eq_true, if_false]
    rw [hchat]

/-- C4 witness: trimming a concrete over-budget history keeps the system
message and fits the budget. -/
theorem C4_history_trim_witness :
    (constrictMessages [⟨.system, "you are a kubernetes expert"⟩,
        ⟨.user, "a rather long first instruction that costs many tokens"⟩,
        ⟨.user, "short"⟩] "gpt-4" 9).head? =
      some ⟨.system, "you are a kubernetes expert"⟩ ∧
    numTokensMsgs (constrictMessages [⟨.system, "you are a kubernetes expert"⟩,
        ⟨.user, "a rather long first instruction that costs many tokens"⟩,
        ⟨.user, "short"⟩] "gpt-4" 9) ≤ 9 := by
  constructor
  · exact C4_history_trim.1 "gpt-4" 9 ⟨.system, "you are a kubernetes expert"⟩
      [⟨.user, "a rather long first instruction that costs many tokens"⟩, ⟨.user, "short"⟩]
  · exact C4_history_trim.2.1 "gpt-4" 9 ⟨.system, "you are a kubernetes expert"⟩
      [⟨.user, "a rather long first instruction that costs many tokens"⟩, ⟨.user, "short"⟩]
      (by decide)

/-- The reply driving the C4 counterexample: a kubectl action envelope. -/
def respC4 : String :=
  "\x7b\"question\":\"q\",\"thought\":\"look at the pods\",\"action\":\x7b\"name\":\"kubectl\",\"input\":\"get pods\"\x7d,\"observation\":\"\",\"final_answer\":\"\"\x7d"

/-- The environment of the C4 counterexample: from the second call on,
the model responds only to histories within the budget of one token;
an over-budget history makes the call fail, exposing what was passed. -/
def envC4 : LoopEnv :=
  { clientErr := none
    chat := fun k h =>
      if k = 0 then .ok respC4
      else if numTokensMsgs h ≤ 1 then .ok "within budget" else .error "overbudget"
    parse := parseToolPrompt
    extractFA := extractFAGeneric
    tools := fun name =>
      if name = "kubectl" then
        some (fun _ => ("NAMESPACE READY STATUS RESTARTS AGE pod-1 1/1 Running 0 17d", false))
      else none }

/-- C4 counterexample: with `maxTokens = 1` the part_012 loop issues its
second completion on the untrimmed history, whose token count exceeds the
budget — the claim's trim never happens there. -/
theorem C4_counterexample :
    (assistantV2 envC4 "gpt-4" 1 10 [⟨.system, "sys"⟩, ⟨.user, "how many pods?"⟩]).1 =
      .err "chat completion error: overbudget"
        ([⟨.system, "sys"⟩, ⟨.user, "how many pods?"⟩, ⟨.assistant, respC4⟩] ++
         [actUserMessage "gpt-4" ⟨"q", "look at the pods", ⟨"kubectl", "get pods"⟩, "", ""⟩
            "NAMESPACE READY STATUS RESTARTS AGE pod-1 1/1 Running 0 17d"]) ∧
    numTokensMsgs
        ([⟨.system, "sys"⟩, ⟨.user, "how many pods?"⟩, ⟨.assistant, respC4⟩] ++
         [actUserMessage "gpt-4" ⟨"q", "look at the pods", ⟨"kubectl", "get pods"⟩, "", ""⟩
            "NAMESPACE READY STATUS RESTARTS AGE pod-1 1/1 Running 0 17d"]) > 1 := by
  refine ⟨by decide, by decide⟩

/-- The answer component of a loop result. -/
def answerOf : AResult → String
  | .ok a _ => a
  | .err a _ => a

/-- C5 (amended): in the part_012 loops a registered tool that succeeds
with a whitespace-trimmed empty output short-circuits the iteration: the loop
returns the canned retry answer immediately, appending it as an assistant
message; the pkg/assistants/simple.go loop, also cited by the claim, has
no such guard and feeds the empty observation back (see the
counterexample). -/
theorem C5_empty_observation_guard (env : LoopEnv) (m : String) (mt rem k n : Nat)
    (tp : ToolPrompt) (hist : List Msg) (f : String → String × Bool) (ret : String)
    (hcond : (tp.finalAnswer != "" && !isTemplateValue tp.finalAnswer) = false)
    (hname : tp.action.name ≠ "")
    (hf : env.tools tp.action.name = some f)
    (hret : f tp.action.input = (ret, false))
    (hobs : trimSpaceS ret = "") :
    loopV2 env m mt (rem + 1) k n tp hist =
      (.ok (cannedEmptyAnswer m)
        (hist ++
          [⟨.assistant, marshalToolPrompt { tp with finalAnswer := cannedEmptyAnswer m }⟩]),
       n + 1) := by
  rw [loopV2, if_neg (by simp [hcond]), if_pos (by simp [bne_iff_ne]; exact hname)]
  dsimp only
  rw [hf]
  dsimp only
  rw [hret]
  simp only [Bool.false_eq_true, if_false]
  rw [if_pos hobs]

/-- C5 witness: a concrete empty tool output triggers the canned answer. -/
theorem C5_empty_observation_guard_witness :
    loopV2
        { clientErr := none, chat := fun _ _ => .error "unused", parse := fun _ => none,
          extractFA := fun _ => none,
          tools := fun name => if name = "kubectl" then some (fun _ => ("  \n", false)) else none }
        "gpt-4" 100 5 1 0 ⟨"q", "t", ⟨"kubectl", "get pods -n empty"⟩, "", ""⟩ [⟨.system, "sys"⟩] =
      (.ok (cannedEmptyAnswer "gpt-4")
        ([⟨.system, "sys"⟩] ++
          [⟨.assistant, marshalToolPrompt
             { question := "q", thought := "t", action := ⟨"kubectl", "get pods -n empty"⟩,
               observation := "", finalAnswer := cannedEmptyAnswer "gpt-4" }⟩]), 1) := by
  exact C5_empty_observation_guard
    { clientErr := none, chat := fun _ _ => .error "unused", parse := fun _ => none,
      extractFA := fun _ => none,
      tools := fun name => if name = "kubectl" then some (fun _ => ("  \n", false)) else none }
    "gpt-4" 100 4 1 0 ⟨"q", "t", ⟨"kubectl", "get pods -n empty"⟩, "", ""⟩ [⟨.system, "sys"⟩]
    (fun _ => ("  \n", false)) "  \n" (by decide) (by decide) rfl rfl (by decide)

/-- The first reply of the C5 counterexample: a kubectl action. -/
def respC5a : String :=
  "\x7b\"question\":\"q\",\"thought\":\"t\",\"action\":\x7b\"name\":\"kubectl\",\"input\":\"get pods\"\x7d,\"observation\":\"\",\"final_answer\":\"\"\x7d"

/-- The second reply of the C5 counterexample: a final answer. -/
def respC5b : String := "\x7b\"final_answer\":\"no pods found\"\x7d"

/-- The environment of the C5 counterexample: the registered tool
succeeds with empty output, and the model then answers. -/
def envC5 : LoopEnv :=
  { clientErr := none
    chat := fun k _ => if k = 0 then .ok respC5a else .ok respC5b
    parse := parseToolPrompt
    extractFA := extractFAGeneric
    tools := fun name => if name = "kubectl" then some (fun _ => ("", false)) else none }

/-- C5 counterexample: the simple.go loop does not short-circuit on an
empty successful tool output: it runs a second iteration, feeds the empty
observation back and returns the model's next answer, not the canned
one. -/
theorem C5_counterexample :
    (assistantSimple envC5 "gpt-4" 100 10 [⟨.system, "sys"⟩, ⟨.user, "q"⟩]).2 = 2 ∧
    answerOf (assistantSimple envC5 "gpt-4" 100 10 [⟨.system, "sys"⟩, ⟨.user, "q"⟩]).1 =
      "no pods found" ∧
    "no pods found" ≠ cannedEmptyAnswer "gpt-4" := by
  refine ⟨by decide, by decide, by decide⟩

/-- C6 (amended): a parse failure on the initial reply does not enter the
summarization path — the simple.go entry returns the cleaned raw reply
directly with a nil error; a parse failure on a later reply appends the
summarize request, performs one more completion and returns the extracted
non-empty `final_answer` when the summary yields one, else the raw
summary. -/
theorem C6_parse_failure_paths :
    (∀ (env : LoopEnv) (m : String) (mt : Nat) (mi : Int) (p : List Msg) (r : String),
      p.isEmpty = false → env.clientErr = none → env.chat 0 p = .ok r →
      env.parse (cleanJSONs r) = none →
      assistantSimple env m mt mi p = (.ok (cleanJSONs r) (p ++ [⟨.assistant, r⟩]), 0)) ∧
    (∀ (env : LoopEnv) (m : String) (mt rem k n : Nat) (tp : ToolPrompt)
       (hist H1 H3 : List Msg) (resp resp2 : String),
      tp.finalAnswer = "" → tp.action.name ≠ "" →
      env.tools tp.action.name = none →
      H1 = constrictMessages
        (hist ++ [actUserMessage m tp
          ("Tool " ++ tp.action.name ++
           " is not available. Considering switch to other supported tools.")]) m mt →
      env.chat k H1 = .ok resp →
      env.parse resp = none →
      H3 = H1 ++ [⟨.assistant, resp⟩] ++ [⟨.user, summarizeRequest⟩] →
      env.chat (k + 1) H3 = .ok resp2 →
      loopSimple env m mt (rem + 1) k n tp hist =
        ((match env.extractFA resp2 with
          | some fa => if fa != "" then .ok fa H3 else .ok resp2 H3
          | none => .ok resp2 H3), n + 1)) := by
  constructor
  · intro env m mt mi p r hp hcl hchat hparse
    unfold assistantSimple
    rw [if_neg (by simp [hp]), hcl]
    dsimp only
    rw [hchat]
    dsimp only
    rw [hparse]
  · intro env m mt rem k n tp hist H1 H3 resp resp2 hfa hname htool hH1 hchat1 hparse hH3 hchat2
    subst hH1 hH3
    rw [loopSimple, if_neg (by simp [hfa]), if_pos (by simp [bne_iff_ne]; exact hname)]
    dsimp only
    rw [htool]
    dsimp only
    rw [hchat1]
    dsimp only
    rw [hparse]
    dsimp only
    rw [hchat2]
    dsimp only
    cases env.extractFA resp2 with
    | none => rfl
    | some fa =>
      dsimp only
      by_cases hfa2 : (fa != "") = true
      · rw [if_pos hfa2, if_pos hfa2]
      · rw [if_neg hfa2, if_neg hfa2]

/-- The environment of the C6 counterexample and witness: the model's
first reply is not JSON at all. -/
def envC6 : LoopEnv :=
  { clientErr := none
    chat := fun k _ => if k = 0 then .ok "not a json reply" else .error "unused"
    parse := parseToolPrompt
    extractFA := extractFAGeneric
    tools := fun _ => none }

/-- C6 witness: the initial-failure branch applied at a concrete run. -/
theorem C6_parse_failure_paths_witness :
    assistantSimple envC6 "gpt-4" 100 10 [⟨.system, "sys"⟩, ⟨.user, "q"⟩] =
      (.ok (cleanJSONs "not a json reply")
        ([⟨.system, "sys"⟩, ⟨.user, "q"⟩] ++ [⟨.assistant, "not a json reply"⟩]), 0) :=
  C6_parse_failure_paths.1 envC6 "gpt-4" 100 10
    [⟨.system, "sys"⟩, ⟨.user, "q"⟩] "not a json reply" (by decide) rfl rfl (by decide)

/-- C6 counterexample: the run with an unparseable initial reply performs
no summarization — the returned history contains no summarize request and
no second completion happened (zero loop iterations). -/
theorem C6_counterexample :
    assistantSimple envC6 "gpt-4" 100 10 [⟨.system, "sys"⟩, ⟨.user, "q"⟩] =
      (.ok "not a json reply"
        [⟨.system, "sys"⟩, ⟨.user, "q"⟩, ⟨.assistant, "not a json reply"⟩], 0) ∧
    (⟨.user, summarizeRequest⟩ : Msg) ∉
      [(⟨.system, "sys"⟩ : Msg), ⟨.user, "q"⟩, ⟨.assistant, "not a json reply"⟩] := by
  refine ⟨by decide, by decide⟩
